import Mathlib

/-
Verification of the OSACA `marker_utils` module: a shallow embedding of
`osaca/semantics/marker_utils.py` together with theorems about marker
extraction, jump-label collection, basic-block and loop-body partitioning.

Python lines (`AttrDict` records produced by the external assembly parser)
are modelled by the `Line` structure; Python exceptions relevant to the
scanning code (`TypeError`, `IndexError`) are modelled by `PyErr` and an
`Except` monad; `OrderedDict` is modelled by an association list with
in-place update (`odUpdate`).
-/

/-- An assembly operand, a tagged variant as produced by the external parser
(the code queries the tag before extracting the payload). -/
inductive Operand where
  | register (name : String)
  | immediate (value : Int)
  | identifier (name : String)
  | memory
deriving DecidableEq

/-- An assembler directive: a name and its literal parameters
(a `byte` directive's parameters are the emitted byte values, as strings). -/
structure Directive where
  name : String
  parameters : List String
deriving DecidableEq

/-- A parsed assembly line record (external input, read-only to this core):
position in the stream, optional label, optional instruction mnemonic,
operand list and optional directive. -/
structure Line where
  index : Nat
  label : Option String
  instruction : Option String
  operands : List Operand
  directive : Option Directive
deriving DecidableEq

def defaultLine : Line := ⟨0, none, none, [], none⟩

deriving instance DecidableEq for Except

/-- The Python exceptions that can arise in the scanning code:
`TypeError` (caught by `find_marked_section`) and `IndexError`
(raised by out-of-range list subscripts, not caught). -/
inductive PyErr where
  | typeError
  | indexError
deriving DecidableEq

/-- Python `lst[i]` on a list: `IndexError` when out of range. -/
def pyGet {α : Type} (l : List α) (i : Nat) : Except PyErr α :=
  match l[i]? with
  | some x => Except.ok x
  | none => Except.error PyErr.indexError

/-- Python `x in lst` for an optional string against a string list
(`None in lst` is `False` for a list of strings). -/
def instrMem (i : Option String) (mi : List String) : Bool :=
  match i with
  | some s => mi.contains s
  | none => false

/-- Python `lst[s:e]` for non-negative bounds (the only case reached by
`reduce_to_section`, which raises before slicing with a `-1` index). -/
def pySlice {α : Type} (l : List α) (s e : Int) : List α :=
  (l.take e.toNat).drop s.toNat

/-- Python `str.lower()` restricted to ASCII, as used on the ISA name. -/
def charLower (c : Char) : Char :=
  if 65 ≤ c.toNat ∧ c.toNat ≤ 90 then Char.ofNat (c.toNat + 32) else c

def pyLower (s : String) : String := String.mk (s.data.map charLower)

/-- Python `str.startswith(p)`: the characters of `p` are a prefix of `s`. -/
def pyStartswith (s p : String) : Bool :=
  s.data.take p.data.length == p.data

/-- The architecture-specific helper functions consumed from the external
parser: immediate normalization and register-name canonicalization. -/
structure Parser where
  normalize_imd : Int → Int
  get_full_reg_name : String → String

/-- Modelled from the spec: `ParserX86ATT` (an external collaborator, not
part of this module) supplies `normalize_immediate` and
`canonical_register_name`; on already-normalized marker values and
canonical register names these are identities. -/
def ParserX86ATT : Parser := ⟨id, id⟩

/-- Modelled from the spec: `ParserAArch64v81` (an external collaborator,
not part of this module) supplies `normalize_immediate` and
`canonical_register_name`; on already-normalized marker values and
canonical register names these are identities. -/
def ParserAArch64v81 : Parser := ⟨id, id⟩

/-- A line whose directive is present and named `byte`
(the `while` guard of `match_bytes`). -/
def isByteDirective (l : Line) : Bool :=
  match l.directive with
  | some d => d.name == "byte"
  | none => false

/-- The directive parameters of a line (only read under `isByteDirective`). -/
def dirParams (l : Line) : List String :=
  match l.directive with
  | some d => d.parameters
  | none => []

/-- The `while` loop of `match_bytes`: concatenate the parameters of the
maximal run of `byte`-directive lines, counting the lines consumed. -/
def collectByteLines : List Line → List String × Nat
  | [] => ([], 0)
  | l :: rest =>
    if isByteDirective l then
      let r := collectByteLines rest
      (dirParams l ++ r.1, r.2 + 1)
    else ([], 0)

/-- `match_bytes(lines, index, byte_list)`: compare the prefix (up to the
expected length) of the concatenated byte-directive parameters starting at
`index` against `byte_list`; `(True, line_count)` on equality,
`(False, -1)` otherwise. -/
def match_bytes (lines : List Line) (index : Nat) (byte_list : List String) :
    Bool × Int :=
  let r := collectByteLines (lines.drop index)
  if r.1.take byte_list.length = byte_list then (true, (r.2 : Int))
  else (false, -1)

/-- The operand test of `find_marked_section`: source tagged immediate whose
normalized value is `v`, destination tagged register whose canonical name is
`mov_reg`. -/
def isMarkerMov (p : Parser) (mov_reg : String) (v : Int)
    (source destination : Operand) : Bool :=
  match source, destination with
  | Operand.immediate imm, Operand.register r =>
      p.normalize_imd imm == v && p.get_full_reg_name r == mov_reg
  | _, _ => false

/-- One iteration of the `for` loop of `find_marked_section` (the body of
the `try` block): at line `i`, update the `(index_start, index_end)` state,
or fail with the Python exception the body would raise. -/
def markerStep (p : Parser) (lines : List Line) (mov_instr : List String)
    (mov_reg : String) (mov_vals : Int × Int) (nop_bytes : List String)
    (reverse : Bool) (st : Int × Int) (i : Nat) (line : Line) :
    Except PyErr (Int × Int) :=
  if instrMem line.instruction mov_instr then
    match pyGet lines (i + 1) with
    | Except.error e => Except.error e
    | Except.ok next =>
      if next.directive.isSome then
        match pyGet line.operands (if reverse then 1 else 0) with
        | Except.error e => Except.error e
        | Except.ok source =>
          match pyGet line.operands (if reverse then 0 else 1) with
          | Except.error e => Except.error e
          | Except.ok destination =>
            if isMarkerMov p mov_reg mov_vals.1 source destination then
              match match_bytes lines (i + 1) nop_bytes with
              | (true, lc) => Except.ok ((i : Int) + 1 + lc, st.2)
              | (false, _) => Except.ok st
            else if isMarkerMov p mov_reg mov_vals.2 source destination then
              match match_bytes lines (i + 1) nop_bytes with
              | (true, _) => Except.ok (st.1, (i : Int))
              | (false, _) => Except.ok st
            else Except.ok st
      else Except.ok st
  else Except.ok st

/-- The `for` loop of `find_marked_section`: run `markerStep` on each line,
catching `TypeError` (logged, scan continues), propagating `IndexError`,
and breaking as soon as both indices are recorded. -/
def markerLoop (p : Parser) (lines : List Line) (mov_instr : List String)
    (mov_reg : String) (mov_vals : Int × Int) (nop_bytes : List String)
    (reverse : Bool) : Int × Int → Nat → List Line → Except PyErr (Int × Int)
  | st, _, [] => Except.ok st
  | st, i, l :: rest =>
    match markerStep p lines mov_instr mov_reg mov_vals nop_bytes reverse st i l with
    | Except.error PyErr.typeError =>
      -- caught: `print(i, line)`, state unchanged, loop continues
      if st.1 != -1 && st.2 != -1 then Except.ok st
      else markerLoop p lines mov_instr mov_reg mov_vals nop_bytes reverse st (i + 1) rest
    | Except.error PyErr.indexError => Except.error PyErr.indexError
    | Except.ok st' =>
      if st'.1 != -1 && st'.2 != -1 then Except.ok st'
      else markerLoop p lines mov_instr mov_reg mov_vals nop_bytes reverse st' (i + 1) rest

/-- `find_marked_section`: scan the stream for the start/end marker pair,
starting from `(-1, -1)`. -/
def find_marked_section (lines : List Line) (p : Parser)
    (mov_instr : List String) (mov_reg : String) (mov_vals : Int × Int)
    (nop_bytes : List String) (reverse : Bool) : Except PyErr (Int × Int) :=
  markerLoop p lines mov_instr mov_reg mov_vals nop_bytes reverse (-1, -1) 0 lines

/-- `find_marked_kernel_x86ATT`. -/
def find_marked_kernel_x86ATT (lines : List Line) : Except PyErr (Int × Int) :=
  find_marked_section lines ParserX86ATT ["mov", "movl"] "ebx" (111, 222)
    ["100", "103", "144"] false

/-- `find_marked_kernel_AArch64`. -/
def find_marked_kernel_AArch64 (lines : List Line) : Except PyErr (Int × Int) :=
  find_marked_section lines ParserAArch64v81 ["mov"] "x1" (111, 222)
    ["213", "3", "32", "31"] true

/-- The failures of `reduce_to_section`: `ValueError` for an unsupported
ISA, `LookupError` for a missing start/end marker, and an uncaught Python
exception escaping the scan. -/
inductive ExtractError where
  | unsupportedIsa
  | startMarkerNotFound
  | endMarkerNotFound
  | pyErr (e : PyErr)
deriving DecidableEq

/-- `reduce_to_section(kernel, isa)`: dispatch on the lowered ISA name, fail
on an unknown ISA, then fail if either marker index is `-1`, else slice. -/
def reduce_to_section (kernel : List Line) (isa : String) :
    Except ExtractError (List Line) :=
  let isaL := pyLower isa
  match
    (if isaL = "x86" then
      (find_marked_kernel_x86ATT kernel).mapError ExtractError.pyErr
    else if isaL = "aarch64" then
      (find_marked_kernel_AArch64 kernel).mapError ExtractError.pyErr
    else Except.error ExtractError.unsupportedIsa) with
  | Except.error e => Except.error e
  | Except.ok se =>
    if se.1 = -1 then Except.error ExtractError.startMarkerNotFound
    else if se.2 = -1 then Except.error ExtractError.endMarkerNotFound
    else Except.ok (pySlice kernel se.1 se.2)

-- Jump labels, basic blocks, loop bodies ------------------------------------

/-- `OrderedDict` assignment `d[k] = v`: update in place when the key is
present (keeping its position), append otherwise. -/
def odUpdate {β : Type} (k : String) (v : β) : List (String × β) → List (String × β)
  | [] => [(k, v)]
  | (k', v') :: rest =>
    if k' = k then (k, v) :: rest else (k', v') :: odUpdate k v rest

/-- `OrderedDict` read `d[k]` for the label-range dictionary; the scan only
reads keys that were just inserted, so the default is never reached. -/
def odGet (k : String) : List (String × Nat × Option Nat) → Nat × Option Nat
  | [] => (0, none)
  | (k', v) :: rest => if k' = k then v else odGet k rest

/-- One iteration of the first loop of `find_jump_labels`: on a labelled
line at index `i`, record `labels[label] = (i,)`, close the previous open
label's range at `i`, and make this label current. -/
def jlStep (st : List (String × Nat × Option Nat) × Option String)
    (il : Nat × Line) : List (String × Nat × Option Nat) × Option String :=
  match il.2.label with
  | some lab =>
    let labels1 := odUpdate lab (il.1, none) st.1
    let labels2 :=
      match st.2 with
      | some cur => odUpdate cur ((odGet cur labels1).1, some il.1) labels1
      | none => labels1
    (labels2, some lab)
  | none => st

/-- The label-range dictionary built by the first phase of
`find_jump_labels`, including the final fix-up that closes the last open
label's range at the stream length. -/
def labelRangesRaw (lines : List Line) : List (String × Nat × Option Nat) :=
  let st := lines.enum.foldl jlStep ([], none)
  match st.2 with
  | some cur =>
    match odGet cur st.1 with
    | (s, none) => odUpdate cur (s, some lines.length) st.1
    | (_, some _) => st.1
  | none => st.1

/-- The closed label ranges: after the fix-up every recorded range is a
two-tuple, so the `filterMap` drops nothing. -/
def labelRanges (lines : List Line) : List (String × Nat × Nat) :=
  (labelRangesRaw lines).filterMap fun kv =>
    kv.2.2.map fun e => (kv.1, kv.2.1, e)

/-- The deletion test of `find_jump_labels`: every instruction-bearing line
of `lines[s:e]` has an instruction starting with a dot. -/
def isStructuralSpan (lines : List Line) (s e : Nat) : Bool :=
  (((lines.take e).drop s).filterMap (fun l => l.instruction)).all
    fun ins => pyStartswith ins "."

/-- `find_jump_labels`: the labels whose span contains a non-dot
instruction, each mapped to the line at its starting index. -/
def find_jump_labels (lines : List Line) : List (String × Line) :=
  (labelRanges lines).filterMap fun kv =>
    if isStructuralSpan lines kv.2.1 kv.2.2 then none
    else some (kv.1, lines.getD kv.2.1 defaultLine)

def jumpLabelNames (lines : List Line) : List String :=
  (find_jump_labels lines).map Prod.fst

/-- The identifier payload of an operand
(`o['identifier']['name']` when `'identifier' in o`). -/
def identName : Operand → Option String
  | Operand.identifier n => some n
  | _ => none

/-- The first identifier operand of a line whose name is a valid jump
label (the inner loop of both partitioners). -/
def refTarget (names : List String) (l : Line) : Option String :=
  (l.operands.filterMap identName).find? fun n => names.contains n

/-- Python truthiness of `line['instruction']`: present and non-empty. -/
def instrTruthy (l : Line) : Bool :=
  match l.instruction with
  | some s => !s.isEmpty
  | none => false

/-- The reference found by a line when `line['instruction'] and
line['operands']` is truthy, else nothing (the loop-body walk's test). -/
def lineRef (names : List String) (l : Line) : Option String :=
  if instrTruthy l && !l.operands.isEmpty then refTarget names l else none

/-- The termination test of the basic-block walk: a reference to a valid
jump label when the instruction/operand test is truthy, otherwise the
presence of a label on the line. -/
def blockTerminate (names : List String) (l : Line) : Bool :=
  if instrTruthy l && !l.operands.isEmpty then (refTarget names l).isSome
  else l.label.isSome

/-- The per-label walk of `find_basic_blocks`: append each line, stopping
after the first terminating line. -/
def blockWalk (names : List String) : List Line → List Line
  | [] => []
  | l :: rest =>
    if blockTerminate names l then [l] else l :: blockWalk names rest

/-- `find_basic_blocks`: for every valid jump label, walk the stream from
index 0 up to (not including) the label's line position. -/
def find_basic_blocks (lines : List Line) : List (String × List Line) :=
  (find_jump_labels lines).map fun kv =>
    (kv.1, blockWalk (jumpLabelNames lines) (lines.take (lines.indexOf kv.2)))

/-- The per-label walk of `find_basic_loop_bodies`: append each line; at the
first line referencing a valid jump label, record the block when the
reference names the walk's own label, else record nothing. -/
def loopWalk (names : List String) (label : String) : List Line → Option (List Line)
  | [] => none
  | l :: rest =>
    match lineRef names l with
    | some t => if t = label then some [l] else none
    | none => (loopWalk names label rest).map fun b => l :: b

/-- `find_basic_loop_bodies`: for every valid jump label, walk forward from
the label's line position to the end of the stream. -/
def find_basic_loop_bodies (lines : List Line) : List (String × List Line) :=
  (find_jump_labels lines).filterMap fun kv =>
    (loopWalk (jumpLabelNames lines) kv.1 (lines.drop (lines.indexOf kv.2))).map
      fun b => (kv.1, b)

-- Demo streams -------------------------------------------------------------

def mkInstr (idx : Nat) (ins : String) (ops : List Operand) : Line :=
  ⟨idx, none, some ins, ops, none⟩

def mkByte (idx : Nat) (ps : List String) : Line :=
  ⟨idx, none, none, [], some ⟨"byte", ps⟩⟩

def mkLabel (idx : Nat) (lab : String) : Line :=
  ⟨idx, some lab, none, [], none⟩

/-- The spec's x86 AT&T marker scenario, as parsed line records. -/
def demoX86 : List Line :=
  [mkInstr 0 "movl" [Operand.immediate 111, Operand.register "ebx"],
   mkByte 1 ["100", "103", "144"],
   mkInstr 2 "addl" [Operand.register "eax", Operand.register "ebx"],
   mkInstr 3 "movl" [Operand.immediate 222, Operand.register "ebx"],
   mkByte 4 ["100", "103", "144"]]

/-- The spec's labels scenario: `["L1:", "nop", "jmp L2", "L2:", "nop"]`. -/
def demoLabels : List Line :=
  [mkLabel 0 "L1",
   mkInstr 1 "nop" [],
   mkInstr 2 "jmp" [Operand.identifier "L2"],
   mkLabel 3 "L2",
   mkInstr 4 "nop" []]

/-- The spec's loop scenario: `["L1:", "add", "jmp L1"]`. -/
def demoLoop : List Line :=
  [mkLabel 0 "L1",
   mkInstr 1 "add" [],
   mkInstr 2 "jmp" [Operand.identifier "L1"]]

/-- A stream with two start markers before the end marker (for the
first-match-wins question). -/
def demoTwoStarts : List Line :=
  [mkInstr 0 "movl" [Operand.immediate 111, Operand.register "ebx"],
   mkByte 1 ["100", "103", "144"],
   mkInstr 2 "movl" [Operand.immediate 111, Operand.register "ebx"],
   mkByte 3 ["100", "103", "144"],
   mkInstr 4 "movl" [Operand.immediate 222, Operand.register "ebx"],
   mkByte 5 ["100", "103", "144"]]

/-- A move line with an empty operand list followed by a byte directive
(malformed operand access). -/
def demoShortOperands : List Line :=
  [mkInstr 0 "movl" [],
   mkByte 1 ["100", "103", "144"]]

/-- A stream containing only an end marker, no start marker. -/
def demoEndOnly : List Line :=
  [mkInstr 0 "movl" [Operand.immediate 222, Operand.register "ebx"],
   mkByte 1 ["100", "103", "144"]]

/-- A stream whose final line is a move instruction (the `lines[i+1]`
subscript runs past the end). -/
def demoTrailingMov : List Line :=
  [mkInstr 0 "movl" [Operand.immediate 111, Operand.register "ebx"]]

-- Lemmas about the byte matcher ---------------------------------------------

theorem collectByteLines_eq (l : List Line) :
    collectByteLines l =
      (((l.takeWhile isByteDirective).map dirParams).flatten,
       (l.takeWhile isByteDirective).length) := by
  induction l with
  | nil => rfl
  | cons x rest ih =>
    by_cases h : isByteDirective x
    · simp [collectByteLines, h, List.takeWhile_cons, ih]
    · simp [collectByteLines, h, List.takeWhile_cons]

-- Claim theorems: marker extraction -----------------------------------------

/-- Claim C6: `match_bytes` returns `(true, count-of-directive-lines)` iff
the prefix (of the expected length) of the concatenated parameters of the
consecutive byte-directive lines at the index equals the expected sequence;
in every other case it returns `(false, -1)`. -/
theorem match_bytes_spec (lines : List Line) (index : Nat)
    (byte_list : List String) (_hne : byte_list ≠ []) :
    (match_bytes lines index byte_list =
        (true, (((lines.drop index).takeWhile isByteDirective).length : Int)) ↔
      ((((lines.drop index).takeWhile isByteDirective).map dirParams).flatten.take
          byte_list.length = byte_list)) ∧
    (((((lines.drop index).takeWhile isByteDirective).map dirParams).flatten.take
          byte_list.length ≠ byte_list) →
      match_bytes lines index byte_list = (false, -1)) := by
  unfold match_bytes
  rw [collectByteLines_eq]
  refine ⟨⟨fun h => ?_, fun h => by simp [h]⟩, fun h => by simp [h]⟩
  by_contra hc
  simp [hc] at h

/-- Witness for C6: the actual x86 nop payload matches with one line
consumed; a non-trivial permutation of the expected sequence fails. -/
theorem match_bytes_spec_witness :
    match_bytes demoX86 1 ["100", "103", "144"] = (true, 1) ∧
    match_bytes demoX86 1 ["103", "100", "144"] = (false, -1) := by
  constructor
  · have h :=
      (match_bytes_spec demoX86 1 ["100", "103", "144"] (by decide)).1.mpr (by decide)
    rw [h]; decide
  · exact (match_bytes_spec demoX86 1 ["103", "100", "144"] (by decide)).2 (by decide)

/-- Claim C1: when the scan resolves both marker indices, `extract_kernel`
(`reduce_to_section`) returns exactly `stream[start:end]`; on the x86 AT&T
scenario it returns exactly the single `addl` line. -/
theorem extract_kernel_slice :
    (∀ (kernel : List Line) (s e : Int),
        find_marked_kernel_x86ATT kernel = Except.ok (s, e) → s ≠ -1 → e ≠ -1 →
        reduce_to_section kernel "x86" = Except.ok (pySlice kernel s e)) ∧
    (∀ (kernel : List Line) (s e : Int),
        find_marked_kernel_AArch64 kernel = Except.ok (s, e) → s ≠ -1 → e ≠ -1 →
        reduce_to_section kernel "aarch64" = Except.ok (pySlice kernel s e)) ∧
    reduce_to_section demoX86 "x86" =
      Except.ok [mkInstr 2 "addl" [Operand.register "eax", Operand.register "ebx"]] := by
  refine ⟨fun kernel s e h hs he => ?_, fun kernel s e h hs he => ?_, by decide⟩
  · have hx : pyLower "x86" = "x86" := by decide
    simp [reduce_to_section, hx, h, Except.mapError, hs, he]
  · have hx : pyLower "aarch64" = "aarch64" := by decide
    simp [reduce_to_section, hx, h, Except.mapError, hs, he]

/-- Witness for C1: the general slicing conjunct applied to the x86
scenario stream with the scan result `(2, 3)`. -/
theorem extract_kernel_slice_witness :
    reduce_to_section demoX86 "x86" = Except.ok (pySlice demoX86 2 3) :=
  extract_kernel_slice.1 demoX86 2 3 (by decide) (by decide) (by decide)

/-- Claim C2: `reduce_to_section` fails with the unsupported-ISA error for
every stream when the lowered ISA name is neither `x86` nor `aarch64`
(before any scanning), and fails with the start-marker error whenever the
scan reports `-1` for the start index, whatever the end index is. -/
theorem reduce_to_section_failures :
    (∀ (lines : List Line) (isa : String),
        pyLower isa ≠ "x86" → pyLower isa ≠ "aarch64" →
        reduce_to_section lines isa = Except.error ExtractError.unsupportedIsa) ∧
    (∀ (lines : List Line) (e : Int),
        find_marked_kernel_x86ATT lines = Except.ok (-1, e) →
        reduce_to_section lines "x86" =
          Except.error ExtractError.startMarkerNotFound) ∧
    (∀ (lines : List Line) (e : Int),
        find_marked_kernel_AArch64 lines = Except.ok (-1, e) →
        reduce_to_section lines "aarch64" =
          Except.error ExtractError.startMarkerNotFound) := by
  refine ⟨fun lines isa h1 h2 => ?_, fun lines e h => ?_, fun lines e h => ?_⟩
  · simp [reduce_to_section, h1, h2]
  · have hx : pyLower "x86" = "x86" := by decide
    simp [reduce_to_section, hx, h, Except.mapError]
  · have hx : pyLower "aarch64" = "aarch64" := by decide
    simp [reduce_to_section, hx, h, Except.mapError]

/-- Witness for C2: an unknown ISA string fails with the unsupported-ISA
error even on a stream whose scan would raise; a stream containing only an
end marker (scan result `(-1, 0)`) fails with the start-marker error. -/
theorem reduce_to_section_failures_witness :
    reduce_to_section demoTrailingMov "riscv" =
      Except.error ExtractError.unsupportedIsa ∧
    reduce_to_section demoEndOnly "x86" =
      Except.error ExtractError.startMarkerNotFound :=
  ⟨reduce_to_section_failures.1 demoTrailingMov "riscv" (by decide) (by decide),
   reduce_to_section_failures.2.1 demoEndOnly 0 (by decide)⟩

/-- Counterexample to C4: on a stream with two start markers before the end
marker, the scan does not keep the first start index (which would give
`(2, 4)`); the later start marker overwrites it and the scan returns
`(4, 4)`. -/
theorem marker_scan_not_first_match :
    find_marked_kernel_x86ATT demoTwoStarts ≠ Except.ok (2, 4) ∧
    find_marked_kernel_x86ATT demoTwoStarts = Except.ok (4, 4) := by decide

/-- Amended C4: while the other index is still unrecorded, a matching start
(respectively end) marker at line `i` sets the start index to
`i + 1 + line_count` (respectively the end index to `i`) unconditionally,
discarding any previously recorded value: the last match wins. -/
theorem marker_scan_overwrite (p : Parser) (lines : List Line)
    (mov_instr : List String) (mov_reg : String) (mov_vals : Int × Int)
    (nop_bytes : List String) (st : Int × Int) (i : Nat) (l : Line)
    (nx : Line) (v : Int) (r : String) (lc : Int)
    (h1 : instrMem l.instruction mov_instr = true)
    (h2 : lines[i + 1]? = some nx)
    (h3 : nx.directive.isSome = true)
    (hops : l.operands = [Operand.immediate v, Operand.register r])
    (hreg : p.get_full_reg_name r = mov_reg) :
    (p.normalize_imd v = mov_vals.1 →
      match_bytes lines (i + 1) nop_bytes = (true, lc) →
      markerStep p lines mov_instr mov_reg mov_vals nop_bytes false st i l =
        Except.ok ((i : Int) + 1 + lc, st.2)) ∧
    (p.normalize_imd v ≠ mov_vals.1 → p.normalize_imd v = mov_vals.2 →
      match_bytes lines (i + 1) nop_bytes = (true, lc) →
      markerStep p lines mov_instr mov_reg mov_vals nop_bytes false st i l =
        Except.ok (st.1, (i : Int))) := by
  constructor
  · intro hv hm
    simp [markerStep, h1, pyGet, h2, h3, hops, isMarkerMov, hreg, hv, hm]
  · intro hv1 hv2 hm
    have hne2 : mov_vals.2 ≠ mov_vals.1 := fun hc => hv1 (by rw [hv2, hc])
    simp [markerStep, h1, pyGet, h2, h3, hops, isMarkerMov, hreg, hv2, hne2, hm]

/-- Witness for the amended C4: at line 2 of the two-start stream, with the
start index already recorded as 2, the step overwrites it with 4. -/
theorem marker_scan_overwrite_witness :
    markerStep ParserX86ATT demoTwoStarts ["mov", "movl"] "ebx" (111, 222)
      ["100", "103", "144"] false (2, -1) 2
      (mkInstr 2 "movl" [Operand.immediate 111, Operand.register "ebx"]) =
      Except.ok (4, -1) := by
  have h :=
    (marker_scan_overwrite ParserX86ATT demoTwoStarts ["mov", "movl"] "ebx"
      (111, 222) ["100", "103", "144"] (2, -1) 2
      (mkInstr 2 "movl" [Operand.immediate 111, Operand.register "ebx"])
      (mkByte 3 ["100", "103", "144"]) 111 "ebx" 1
      (by decide) (by decide) (by decide) rfl rfl).1 rfl (by decide)
  rw [h]; decide

/-- Counterexample to C5: on a stream whose first line is a move mnemonic
with an empty operand list followed by a byte directive, the scan does not
continue past the malformed line; it aborts with an uncaught index error. -/
theorem short_operands_abort :
    find_marked_kernel_x86ATT demoShortOperands =
      Except.error PyErr.indexError := by decide

/-- Amended C5: only a `TypeError` is caught by the scan; an operand list
shorter than the expected two entries on a move line followed by a
directive line raises an `IndexError`, which is not caught and aborts the
whole scan. -/
theorem short_operands_index_error (p : Parser) (lines : List Line)
    (mov_instr : List String) (mov_reg : String) (mov_vals : Int × Int)
    (nop_bytes : List String) (rev : Bool) (st : Int × Int) (i : Nat)
    (l : Line) (rest : List Line) (nx : Line)
    (h1 : instrMem l.instruction mov_instr = true)
    (h2 : lines[i + 1]? = some nx)
    (h3 : nx.directive.isSome = true)
    (hops : l.operands = []) :
    markerLoop p lines mov_instr mov_reg mov_vals nop_bytes rev st i (l :: rest) =
      Except.error PyErr.indexError := by
  have hstep : markerStep p lines mov_instr mov_reg mov_vals nop_bytes rev st i l =
      Except.error PyErr.indexError := by
    cases rev <;> simp [markerStep, h1, pyGet, h2, h3, hops]
  simp [markerLoop, hstep]

/-- Witness for the amended C5: the whole scan on the short-operands stream
aborts with the index error. -/
theorem short_operands_index_error_witness :
    markerLoop ParserX86ATT demoShortOperands ["mov", "movl"] "ebx" (111, 222)
      ["100", "103", "144"] false (-1, -1) 0 demoShortOperands =
      Except.error PyErr.indexError :=
  short_operands_index_error ParserX86ATT demoShortOperands ["mov", "movl"]
    "ebx" (111, 222) ["100", "103", "144"] false (-1, -1) 0
    (mkInstr 0 "movl" []) [mkByte 1 ["100", "103", "144"]]
    (mkByte 1 ["100", "103", "144"]) (by decide) (by decide) (by decide) rfl

/-- Claim C10: when the scan reaches a line whose instruction is a move
mnemonic and there is no line at `i + 1`, the subscript `lines[i + 1]`
raises an uncaught `IndexError`; on a one-line stream consisting of a start
move, `reduce_to_section` aborts with that error instead of a
marker-not-found failure. -/
theorem trailing_mov_index_error :
    (∀ (p : Parser) (lines : List Line) (mov_instr : List String)
        (mov_reg : String) (mov_vals : Int × Int) (nop_bytes : List String)
        (rev : Bool) (st : Int × Int) (i : Nat) (l : Line),
        instrMem l.instruction mov_instr = true → lines[i + 1]? = none →
        markerLoop p lines mov_instr mov_reg mov_vals nop_bytes rev st i [l] =
          Except.error PyErr.indexError) ∧
    reduce_to_section demoTrailingMov "x86" =
      Except.error (ExtractError.pyErr PyErr.indexError) := by
  refine ⟨fun p lines mov_instr mov_reg mov_vals nop_bytes rev st i l h1 h2 => ?_,
    by decide⟩
  have hstep : markerStep p lines mov_instr mov_reg mov_vals nop_bytes rev st i l =
      Except.error PyErr.indexError := by
    simp [markerStep, h1, pyGet, h2]
  simp [markerLoop, hstep]

-- Lemmas about the ordered dictionaries ------------------------------------

theorem keys_odUpdate_mem {β : Type} (k k' : String) (v : β)
    (l : List (String × β)) :
    k' ∈ (odUpdate k v l).map Prod.fst ↔ k' = k ∨ k' ∈ l.map Prod.fst := by
  induction l with
  | nil => simp [odUpdate]
  | cons a rest ih =>
    by_cases h : a.1 = k
    · simp only [odUpdate, if_pos h, List.map_cons, List.mem_cons]
      rw [← h]
      tauto
    · simp only [odUpdate, if_neg h, List.map_cons, List.mem_cons, ih]
      tauto

theorem keys_odUpdate_nodup {β : Type} (k : String) (v : β)
    (l : List (String × β)) (h : (l.map Prod.fst).Nodup) :
    ((odUpdate k v l).map Prod.fst).Nodup := by
  induction l with
  | nil => simp [odUpdate]
  | cons a rest ih =>
    rw [List.map_cons, List.nodup_cons] at h
    obtain ⟨h1, h2⟩ := h
    by_cases hk : a.1 = k
    · simp only [odUpdate, if_pos hk, List.map_cons]
      exact List.nodup_cons.mpr ⟨hk ▸ h1, h2⟩
    · simp only [odUpdate, if_neg hk, List.map_cons]
      refine List.nodup_cons.mpr ⟨?_, ih h2⟩
      intro hmem
      rcases (keys_odUpdate_mem k a.1 v rest).mp hmem with h' | h'
      · exact hk h'
      · exact h1 h'

theorem foldl_invariant {σ τ : Type} (P : σ → Prop) (f : σ → τ → σ)
    (hstep : ∀ s x, P s → P (f s x)) :
    ∀ (l : List τ) (s : σ), P s → P (l.foldl f s) := by
  intro l
  induction l with
  | nil => intro s hs; simpa using hs
  | cons x rest ih => intro s hs; simpa using ih (f s x) (hstep s x hs)

theorem jlStep_nodup (st : List (String × Nat × Option Nat) × Option String)
    (il : Nat × Line) (h : (st.1.map Prod.fst).Nodup) :
    (((jlStep st il).1).map Prod.fst).Nodup := by
  unfold jlStep
  rcases hlab : il.2.label with _ | lab
  · simp only [hlab]
    exact h
  · simp only [hlab]
    rcases hcur : st.2 with _ | cur
    · simp only [hcur]
      exact keys_odUpdate_nodup _ _ _ h
    · simp only [hcur]
      exact keys_odUpdate_nodup _ _ _ (keys_odUpdate_nodup _ _ _ h)

theorem labelRangesRaw_keys_nodup (lines : List Line) :
    ((labelRangesRaw lines).map Prod.fst).Nodup := by
  have hfold : (((lines.enum.foldl jlStep ([], none)).1).map Prod.fst).Nodup :=
    foldl_invariant (fun st => ((st.1).map Prod.fst).Nodup) jlStep
      (fun s x hs => jlStep_nodup s x hs) lines.enum ([], none) (by simp)
  unfold labelRangesRaw
  rcases hc : (lines.enum.foldl jlStep ([], none)).2 with _ | cur
  · simp only [hc]
    exact hfold
  · simp only [hc]
    rcases hg : odGet cur (lines.enum.foldl jlStep ([], none)).1 with ⟨s, e⟩
    cases e with
    | none =>
      simp only [hg]
      exact keys_odUpdate_nodup _ _ _ hfold
    | some x =>
      simp only [hg]
      exact hfold

theorem keys_filterMap_sublist {α β γ : Type} (g : α × β → Option (α × γ))
    (hg : ∀ kv w, g kv = some w → w.1 = kv.1) (l : List (α × β)) :
    ((l.filterMap g).map Prod.fst).Sublist (l.map Prod.fst) := by
  induction l with
  | nil => simp
  | cons a rest ih =>
    cases hga : g a with
    | none =>
      simp only [List.filterMap_cons, hga, List.map_cons]
      exact ih.cons a.1
    | some w =>
      simp only [List.filterMap_cons, hga, List.map_cons]
      rw [hg a w hga]
      exact ih.cons₂ a.1

theorem labelRanges_keys_nodup (lines : List Line) :
    ((labelRanges lines).map Prod.fst).Nodup := by
  have hsub := keys_filterMap_sublist
    (fun kv => kv.2.2.map fun e => (kv.1, kv.2.1, e))
    (fun kv w hw => by
      rcases kv with ⟨k, s, e⟩
      cases e with
      | none => simp at hw
      | some x =>
        simp only [Option.map_some'] at hw
        exact (congrArg Prod.fst (Option.some.inj hw)).symm)
    (labelRangesRaw lines)
  exact (labelRangesRaw_keys_nodup lines).sublist hsub

theorem find_jump_labels_keys_nodup (lines : List Line) :
    (jumpLabelNames lines).Nodup := by
  have hsub := keys_filterMap_sublist
    (fun kv => if isStructuralSpan lines kv.2.1 kv.2.2 then none
               else some (kv.1, lines.getD kv.2.1 defaultLine))
    (fun kv w hw => by
      have hw' : (if isStructuralSpan lines kv.2.1 kv.2.2 = true then none
          else some (kv.1, lines.getD kv.2.1 defaultLine)) = some w := hw
      by_cases h : isStructuralSpan lines kv.2.1 kv.2.2 = true
      · rw [if_pos h] at hw'
        cases hw'
      · rw [if_neg h] at hw'
        exact (congrArg Prod.fst (Option.some.inj hw')).symm)
    (labelRanges lines)
  exact (labelRanges_keys_nodup lines).sublist hsub

theorem keys_filterMap_pair_sublist {β γ : Type} (g : String × β → Option γ)
    (l : List (String × β)) :
    ((l.filterMap fun kv => (g kv).map fun c => (kv.1, c)).map Prod.fst).Sublist
      (l.map Prod.fst) :=
  keys_filterMap_sublist _ (fun kv w hw => by
    cases hgkv : g kv with
    | none =>
      rw [hgkv, Option.map_none'] at hw
      cases hw
    | some c =>
      rw [hgkv, Option.map_some'] at hw
      exact (congrArg Prod.fst (Option.some.inj hw)).symm) l

theorem lookup_eq_none_of_keys {β : Type} (k : String) (l : List (String × β))
    (h : k ∉ l.map Prod.fst) : l.lookup k = none := by
  rw [List.lookup_eq_none_iff]
  intro p hp
  simp only [bne_iff_ne, ne_eq]
  exact fun hk => h (hk ▸ List.mem_map_of_mem Prod.fst hp)

theorem lookup_map_entry {β γ : Type} (f : String × β → γ)
    (valid : List (String × β)) (k : String) (v : β)
    (hnd : (valid.map Prod.fst).Nodup) (hmem : (k, v) ∈ valid) :
    (valid.map fun kv => (kv.1, f kv)).lookup k = some (f (k, v)) := by
  induction valid with
  | nil => cases hmem
  | cons a rest ih =>
    rw [List.map_cons, List.nodup_cons] at hnd
    obtain ⟨h1, h2⟩ := hnd
    rcases List.mem_cons.mp hmem with heq | hmem'
    · subst heq
      simp [List.lookup_cons]
    · have hka : k ≠ a.1 :=
        fun hc => h1 (hc ▸ List.mem_map_of_mem Prod.fst hmem')
      have hbeq : (k == a.1) = false := by simpa using hka
      simp only [List.map_cons, List.lookup_cons, hbeq]
      exact ih h2 hmem'

theorem lookup_filterMap_entry {β γ : Type} (g : String × β → Option γ)
    (valid : List (String × β)) (k : String) (v : β)
    (hnd : (valid.map Prod.fst).Nodup) (hmem : (k, v) ∈ valid) :
    (valid.filterMap fun kv => (g kv).map fun c => (kv.1, c)).lookup k =
      g (k, v) := by
  induction valid with
  | nil => cases hmem
  | cons a rest ih =>
    rw [List.map_cons, List.nodup_cons] at hnd
    obtain ⟨h1, h2⟩ := hnd
    rcases List.mem_cons.mp hmem with heq | hmem'
    · subst heq
      cases hga : g (k, v) with
      | none =>
        simp only [List.filterMap_cons, hga, Option.map_none']
        refine lookup_eq_none_of_keys k _ fun hk => ?_
        have h1' : k ∉ rest.map Prod.fst := h1
        exact h1' ((keys_filterMap_pair_sublist g rest).subset hk)
      | some c =>
        simp [List.filterMap_cons, hga, List.lookup_cons]
    · have hka : k ≠ a.1 :=
        fun hc => h1 (hc ▸ List.mem_map_of_mem Prod.fst hmem')
      have hbeq : (k == a.1) = false := by simpa using hka
      cases hga : g a with
      | none =>
        simp only [List.filterMap_cons, hga, Option.map_none']
        exact ih h2 hmem'
      | some c =>
        simp only [List.filterMap_cons, hga, Option.map_some', List.lookup_cons, hbeq]
        exact ih h2 hmem'

-- Lemmas about the walks ----------------------------------------------------

theorem blockWalk_eq_take (names : List String) (w : List Line) :
    ∃ k, k ≤ w.length ∧ blockWalk names w = w.take k := by
  induction w with
  | nil => exact ⟨0, by simp, rfl⟩
  | cons l rest ih =>
    by_cases h : blockTerminate names l
    · exact ⟨1, by simp, by simp [blockWalk, h]⟩
    · obtain ⟨k, hk, he⟩ := ih
      exact ⟨k + 1, by simpa using hk, by simp [blockWalk, h, he]⟩

theorem loopWalk_cases (names : List String) (label : String) (w : List Line) :
    (w.dropWhile (fun l => (lineRef names l).isNone) = [] →
      loopWalk names label w = none) ∧
    (∀ l tl, w.dropWhile (fun l => (lineRef names l).isNone) = l :: tl →
      ((lineRef names l = some label →
         loopWalk names label w =
           some (w.takeWhile (fun l => (lineRef names l).isNone) ++ [l])) ∧
       (∀ t, lineRef names l = some t → t ≠ label →
         loopWalk names label w = none))) := by
  induction w with
  | nil => exact ⟨fun _ => rfl, fun l tl h => by simp at h⟩
  | cons x rest ih =>
    cases hx : lineRef names x with
    | some t =>
      have hdrop : (x :: rest).dropWhile (fun l => (lineRef names l).isNone) =
          x :: rest := by simp [List.dropWhile_cons, hx]
      have htake : (x :: rest).takeWhile (fun l => (lineRef names l).isNone) =
          [] := by simp [List.takeWhile_cons, hx]
      refine ⟨fun hnil => by simp [hdrop] at hnil, fun l tl hcons => ?_⟩
      rw [hdrop] at hcons
      obtain ⟨hlx, htl⟩ := List.cons.inj hcons
      subst hlx
      subst htl
      constructor
      · intro hl
        rw [hx] at hl
        obtain rfl : t = label := Option.some.inj hl
        simp [loopWalk, hx, htake]
      · intro t' ht' hne
        rw [hx] at ht'
        obtain rfl : t = t' := Option.some.inj ht'
        simp [loopWalk, hx, hne]
    | none =>
      have hdrop : (x :: rest).dropWhile (fun l => (lineRef names l).isNone) =
          rest.dropWhile (fun l => (lineRef names l).isNone) := by
        simp [List.dropWhile_cons, hx]
      have htake : (x :: rest).takeWhile (fun l => (lineRef names l).isNone) =
          x :: rest.takeWhile (fun l => (lineRef names l).isNone) := by
        simp [List.takeWhile_cons, hx]
      refine ⟨fun hnil => ?_, fun l tl hcons => ?_⟩
      · rw [hdrop] at hnil
        simp [loopWalk, hx, ih.1 hnil]
      · rw [hdrop] at hcons
        obtain ⟨ih1, ih2⟩ := ih.2 l tl hcons
        constructor
        · intro hl
          simp [loopWalk, hx, ih1 hl, htake]
        · intro t' ht' hne
          simp [loopWalk, hx, ih2 t' ht' hne]

theorem loop_bodies_lookup (lines : List Line) (label : String) (line0 : Line)
    (hmem : (label, line0) ∈ find_jump_labels lines) :
    (find_basic_loop_bodies lines).lookup label =
      loopWalk (jumpLabelNames lines) label
        (lines.drop (lines.indexOf line0)) :=
  lookup_filterMap_entry
    (fun kv => loopWalk (jumpLabelNames lines) kv.1
      (lines.drop (lines.indexOf kv.2)))
    (find_jump_labels lines) label line0 (find_jump_labels_keys_nodup lines) hmem

theorem blocks_lookup (lines : List Line) (label : String) (line0 : Line)
    (hmem : (label, line0) ∈ find_jump_labels lines) :
    (find_basic_blocks lines).lookup label =
      some (blockWalk (jumpLabelNames lines)
        (lines.take (lines.indexOf line0))) :=
  lookup_map_entry
    (fun kv => blockWalk (jumpLabelNames lines)
      (lines.take (lines.indexOf kv.2)))
    (find_jump_labels lines) label line0 (find_jump_labels_keys_nodup lines) hmem

theorem isStructuralSpan_false_iff (lines : List Line) (s e : Nat) :
    isStructuralSpan lines s e = false ↔
      ∃ l ∈ (lines.take e).drop s, ∃ ins,
        l.instruction = some ins ∧ pyStartswith ins "." = false := by
  unfold isStructuralSpan
  rw [← Bool.not_eq_true]
  simp only [List.all_eq_true, List.mem_filterMap, not_forall]
  constructor
  · rintro ⟨ins, hins, hfalse⟩
    obtain ⟨l, hl, hli⟩ := hins
    exact ⟨l, hl, ins, hli, by simpa using hfalse⟩
  · rintro ⟨l, hl, ins, hli, hfalse⟩
    exact ⟨ins, ⟨l, hl, hli⟩, by simp [hfalse]⟩

-- Claim theorems: jump labels, blocks, loop bodies ---------------------------

/-- Claim C8: a label appears in the jump-label collection iff its recorded
span contains a line carrying an instruction that does not start with a
dot; labels whose span is all directives are never included. -/
theorem find_jump_labels_iff (lines : List Line) (label : String) :
    (∃ line0, (label, line0) ∈ find_jump_labels lines) ↔
    (∃ s e, (label, s, e) ∈ labelRanges lines ∧
      ∃ l ∈ (lines.take e).drop s, ∃ ins,
        l.instruction = some ins ∧ pyStartswith ins "." = false) := by
  constructor
  · rintro ⟨line0, h⟩
    rw [show find_jump_labels lines = (labelRanges lines).filterMap fun kv =>
        if isStructuralSpan lines kv.2.1 kv.2.2 then none
        else some (kv.1, lines.getD kv.2.1 defaultLine) from rfl,
      List.mem_filterMap] at h
    obtain ⟨kv, hkv, heq⟩ := h
    by_cases hs : isStructuralSpan lines kv.2.1 kv.2.2
    · simp [hs] at heq
    · rw [if_neg hs] at heq
      have h1 : kv.1 = label := congrArg Prod.fst (Option.some.inj heq)
      refine ⟨kv.2.1, kv.2.2, ?_, ?_⟩
      · rw [← h1]
        exact hkv
      · exact (isStructuralSpan_false_iff lines kv.2.1 kv.2.2).mp
          (Bool.not_eq_true _ ▸ hs)
  · rintro ⟨s, e, hmem, hex⟩
    refine ⟨lines.getD s defaultLine, ?_⟩
    rw [show find_jump_labels lines = (labelRanges lines).filterMap fun kv =>
        if isStructuralSpan lines kv.2.1 kv.2.2 then none
        else some (kv.1, lines.getD kv.2.1 defaultLine) from rfl,
      List.mem_filterMap]
    refine ⟨(label, s, e), hmem, ?_⟩
    rw [if_neg]
    rw [(isStructuralSpan_false_iff lines s e).mpr hex]
    simp

/-- Claim C7: for a valid jump label, the forward walk from the label's
line position decides the loop body: if the first line referencing a valid
jump label references the label itself, the body is the span up to and
including that line; if it references a different label, or no line
references a valid label, the label is absent. -/
theorem find_basic_loop_bodies_spec (lines : List Line) (label : String)
    (line0 : Line) (hmem : (label, line0) ∈ find_jump_labels lines) :
    ((lines.drop (lines.indexOf line0)).dropWhile
        (fun l => (lineRef (jumpLabelNames lines) l).isNone) = [] →
      (find_basic_loop_bodies lines).lookup label = none) ∧
    (∀ l tl, (lines.drop (lines.indexOf line0)).dropWhile
        (fun l => (lineRef (jumpLabelNames lines) l).isNone) = l :: tl →
      ((lineRef (jumpLabelNames lines) l = some label →
         (find_basic_loop_bodies lines).lookup label =
           some ((lines.drop (lines.indexOf line0)).takeWhile
               (fun l => (lineRef (jumpLabelNames lines) l).isNone) ++ [l])) ∧
       (∀ t, lineRef (jumpLabelNames lines) l = some t → t ≠ label →
         (find_basic_loop_bodies lines).lookup label = none))) := by
  rw [loop_bodies_lookup lines label line0 hmem]
  exact loopWalk_cases (jumpLabelNames lines) label
    (lines.drop (lines.indexOf line0))

/-- Witness for C7: on the loop scenario `["L1:", "add", "jmp L1"]` the walk
first references `L1` itself at the `jmp` line, and the loop body is the
whole stream. -/
theorem find_basic_loop_bodies_spec_witness :
    (find_basic_loop_bodies demoLoop).lookup "L1" = some demoLoop := by
  have h := ((find_basic_loop_bodies_spec demoLoop "L1" (mkLabel 0 "L1")
      (by decide)).2 (mkInstr 2 "jmp" [Operand.identifier "L1"]) []
      (by decide)).1 (by decide)
  rw [h]; decide

/-- Claim C9: for every valid jump label, the basic block is a contiguous
prefix of the stream starting at index 0, and it is empty when the label's
line sits at index 0. -/
theorem find_basic_blocks_initial (lines : List Line) (label : String)
    (line0 : Line) (hmem : (label, line0) ∈ find_jump_labels lines) :
    (∃ k, k ≤ lines.indexOf line0 ∧
       (find_basic_blocks lines).lookup label = some (lines.take k)) ∧
    (lines.indexOf line0 = 0 →
       (find_basic_blocks lines).lookup label = some []) := by
  have hlk := blocks_lookup lines label line0 hmem
  obtain ⟨k, hk, he⟩ :=
    blockWalk_eq_take (jumpLabelNames lines) (lines.take (lines.indexOf line0))
  constructor
  · refine ⟨min k (lines.indexOf line0), min_le_right _ _, ?_⟩
    rw [hlk, he, List.take_take]
  · intro h0
    rw [hlk, he]
    simp [h0]

/-- Witness for C9: the label `L1` of the loop scenario sits at index 0 and
its basic block is empty. -/
theorem find_basic_blocks_initial_witness :
    (find_basic_blocks demoLoop).lookup "L1" = some [] :=
  (find_basic_blocks_initial demoLoop "L1" (mkLabel 0 "L1") (by decide)).2
    (by decide)

/-- Counterexample to C3: on the labels scenario, `find_basic_blocks["L2"]`
is not the three lines `L1:` through `jmp L2`; the walk stops at the
label-carrying line `L1:` itself. -/
theorem basic_blocks_scenario_counterexample :
    (find_basic_blocks demoLabels).lookup "L2" ≠
      some [mkLabel 0 "L1", mkInstr 1 "nop" [],
            mkInstr 2 "jmp" [Operand.identifier "L2"]] := by decide

/-- Amended C3: on the labels scenario, the jump labels are `L1` and `L2`
in that order, and `find_basic_blocks["L2"]` is the single line `L1:` (the
walk from index 0 appends the `L1:` line and terminates there because it
carries a label). -/
theorem basic_blocks_scenario :
    (find_jump_labels demoLabels).map Prod.fst = ["L1", "L2"] ∧
    (find_basic_blocks demoLabels).lookup "L2" = some [mkLabel 0 "L1"] := by
  decide

/-- Witness for C10: the scan of the one-line trailing-move stream hits the
out-of-range subscript. -/
theorem trailing_mov_index_error_witness :
    markerLoop ParserX86ATT demoTrailingMov ["mov", "movl"] "ebx" (111, 222)
      ["100", "103", "144"] false (-1, -1) 0 demoTrailingMov =
      Except.error PyErr.indexError :=
  trailing_mov_index_error.1 ParserX86ATT demoTrailingMov ["mov", "movl"]
    "ebx" (111, 222) ["100", "103", "144"] false (-1, -1) 0
    (mkInstr 0 "movl" [Operand.immediate 111, Operand.register "ebx"])
    (by decide) (by decide)
